import Mathlib

/-!
Shallow embedding of the CBOR codec in `os/lib/cbor.c` / `os/lib/cbor.h`
(contiki-ng), together with proofs of the specification's testable
properties.

Modelling conventions:
* Bytes are `Nat` (each value produced by the code is < 256; `memcpy`-style
  copies transport the caller's list verbatim).
* The writer's `buffer` pointer moves backward from `base + buffer_size`
  toward `base`.  We model the pair (pointer, written region) as
  `Option (List Nat)`: `none` is the C `NULL` (poisoned) pointer, and
  `some w` holds the bytes from the cursor to the end of the caller's
  buffer, in forward (wire) order.  Because the C code decrements `buffer`
  and `buffer_size` in lockstep, the cursor always sits at
  `base + buffer_size`; in particular `stop` returns the buffer's base
  address exactly when the final `buffer_size` is zero.
* The per-nesting-level item counters `objects[CBOR_MAX_NESTING]` are a
  total function `Nat → Nat` (the C array is only read at indices that were
  initialised by `cbor_open_array`/`cbor_open_map`).
* `size_t` is modelled as an unbounded `Nat`; `SIZE_MAX` is the LP64 value
  `2^64 - 1`, matching the widest platform on which `uint64_t` values can
  reach `SIZE_MAX`.
* The reader keeps the remaining input as a list plus the remaining byte
  count `cbor_size`, mirroring the two fields of `cbor_reader_state_t`.
-/

/-- `CBOR_MAX_NESTING` with its default value 8 (cbor.h). -/
def CBOR_MAX_NESTING : Nat := 8

/-- `SIZE_MAX` on an LP64 platform. -/
def SIZE_MAX : Nat := 2 ^ 64 - 1

def CBOR_MAJOR_TYPE_UNSIGNED : Nat := 0x00
def CBOR_MAJOR_TYPE_BYTE_STRING : Nat := 0x40
def CBOR_MAJOR_TYPE_TEXT_STRING : Nat := 0x60
def CBOR_MAJOR_TYPE_ARRAY : Nat := 0x80
def CBOR_MAJOR_TYPE_MAP : Nat := 0xA0
def CBOR_MAJOR_TYPE_SIMPLE : Nat := 0xE0

def CBOR_SIMPLE_VALUE_FALSE : Nat := 0xF4
def CBOR_SIMPLE_VALUE_TRUE : Nat := 0xF5
def CBOR_SIMPLE_VALUE_NULL : Nat := 0xF6
def CBOR_SIMPLE_VALUE_UNDEFINED : Nat := 0xF7

def CBOR_SIZE_1 : Nat := 0x18
def CBOR_SIZE_2 : Nat := 0x19
def CBOR_SIZE_4 : Nat := 0x1A
def CBOR_SIZE_8 : Nat := 0x1B

/-- `CBOR_UNSIGNED_SIZE` macro (cbor.h): total encoded size of an unsigned. -/
def CBOR_UNSIGNED_SIZE (uint : Nat) : Nat :=
  if uint < CBOR_SIZE_1 then 1
  else if uint ≤ 0xFF then 1 + 1
  else if uint ≤ 0xFFFF then 1 + 2
  else if uint ≤ 0xFFFFFFFF then 1 + 4
  else 1 + 8

/-- `CBOR_BYTE_STRING_SIZE` macro (cbor.h). -/
def CBOR_BYTE_STRING_SIZE (bytes : Nat) : Nat :=
  CBOR_UNSIGNED_SIZE bytes + bytes

/-- `cbor_writer_state_t` (cbor.h).  `buffer = none` is the NULL pointer;
`buffer = some w` means the bytes from the cursor to the end of the
caller's buffer are `w`. -/
structure cbor_writer_state_t where
  buffer : Option (List Nat)
  buffer_size : Nat
  nesting_depth : Nat
  objects : Nat → Nat

/-- `cbor_reader_state_t` (cbor.h): remaining input and remaining count. -/
structure cbor_reader_state_t where
  cbor : List Nat
  cbor_size : Nat
deriving Repr, DecidableEq

/-- `cbor_init_writer` (cbor.c): cursor at one-past-end, depth at max.
The C code leaves `objects` uninitialised; it is only ever read after
`cbor_open_array` resets a slot, so initialising to zero is unobservable. -/
def cbor_init_writer (buffer_size : Nat) : cbor_writer_state_t :=
  { buffer := some [], buffer_size := buffer_size,
    nesting_depth := CBOR_MAX_NESTING, objects := fun _ => 0 }

/-- `cbor_stop_writer` (cbor.c): the output iff all containers are closed
(`buffer` is `none` when poisoned, so a poisoned writer yields `none`). -/
def cbor_stop_writer (state : cbor_writer_state_t) : Option (List Nat) :=
  if state.nesting_depth = CBOR_MAX_NESTING then state.buffer else none

/-- static `increment` (cbor.c): bump the innermost open container's
item counter; no-op at top level. -/
def increment (state : cbor_writer_state_t) : cbor_writer_state_t :=
  if state.nesting_depth = CBOR_MAX_NESTING then state
  else { state with
          objects := fun i =>
            if i = state.nesting_depth then state.objects state.nesting_depth + 1
            else state.objects i }

/-- static `prepend_object` (cbor.c): raw prepend with bounds check. -/
def prepend_object (state : cbor_writer_state_t) (object : List Nat) :
    cbor_writer_state_t :=
  if object.length = 0 then state
  else if state.buffer_size < object.length then
    { state with buffer := none, buffer_size := 0 }
  else
    { state with buffer := state.buffer.map (fun w => object ++ w),
                 buffer_size := state.buffer_size - object.length }

/-- `cbor_prepend_object` (cbor.c). -/
def cbor_prepend_object (state : cbor_writer_state_t) (object : List Nat) :
    cbor_writer_state_t :=
  increment (prepend_object state object)

/-- The `length_to_copy` selected by static `prepend_unsigned` (cbor.c). -/
def ltc_of (value : Nat) : Nat :=
  if value < CBOR_SIZE_1 then 0
  else if value ≤ 0xFF then 1
  else if value ≤ 0xFFFF then 2
  else if value ≤ 0xFFFFFFFF then 4
  else 8

/-- The `jump_byte` selected by static `prepend_unsigned` (cbor.c). -/
def jump_of (value : Nat) : Nat :=
  if value < CBOR_SIZE_1 then value
  else if value ≤ 0xFF then CBOR_SIZE_1
  else if value ≤ 0xFFFF then CBOR_SIZE_2
  else if value ≤ 0xFFFFFFFF then CBOR_SIZE_4
  else CBOR_SIZE_8

/-- The big-endian argument bytes written by the backward copy loop in
static `prepend_unsigned` (cbor.c): the loop stores `value & 0xFF` at the
highest address, then shifts, so the forward order is big-endian. -/
def be_bytes (value : Nat) : Nat → List Nat
  | 0 => []
  | n + 1 => be_bytes (value / 256) n ++ [value % 256]

/-- static `prepend_unsigned` (cbor.c): shortest-form header.  The bounds
check is `buffer_size <= length_to_copy` because one more byte (the
initial byte) is written after the argument bytes. -/
def prepend_unsigned (state : cbor_writer_state_t) (value : Nat) :
    cbor_writer_state_t :=
  let length_to_copy := ltc_of value
  let jump_byte := jump_of value
  if state.buffer_size ≤ length_to_copy then
    { state with buffer := none, buffer_size := 0 }
  else
    { state with
        buffer := state.buffer.map
          (fun w => jump_byte :: (be_bytes value length_to_copy ++ w)),
        buffer_size := state.buffer_size - length_to_copy - 1 }

/-- `cbor_prepend_unsigned` (cbor.c). -/
def cbor_prepend_unsigned (state : cbor_writer_state_t) (value : Nat) :
    cbor_writer_state_t :=
  increment (prepend_unsigned state value)

/-- `*state->buffer |= m` (cbor.c): OR the major type into the first byte. -/
def or_head (m : Nat) : List Nat → List Nat
  | [] => []
  | b :: rest => (b ||| m) :: rest

/-- `cbor_wrap_data` (cbor.c). -/
def cbor_wrap_data (state : cbor_writer_state_t) (data_size : Nat) :
    cbor_writer_state_t :=
  let s1 := cbor_prepend_unsigned state data_size
  match s1.buffer with
  | none => s1
  | some w => { s1 with buffer := some (or_head CBOR_MAJOR_TYPE_BYTE_STRING w) }

/-- `cbor_prepend_data` (cbor.c). -/
def cbor_prepend_data (state : cbor_writer_state_t) (data : List Nat) :
    cbor_writer_state_t :=
  cbor_wrap_data (prepend_object state data) data.length

/-- `cbor_prepend_text` (cbor.c). -/
def cbor_prepend_text (state : cbor_writer_state_t) (text : List Nat) :
    cbor_writer_state_t :=
  let s1 := cbor_prepend_unsigned (prepend_object state text) text.length
  match s1.buffer with
  | none => s1
  | some w => { s1 with buffer := some (or_head CBOR_MAJOR_TYPE_TEXT_STRING w) }

/-- `cbor_open_array` (cbor.c): push a zeroed counter.  The C function also
returns `state->buffer`; the returned value equals the `buffer` field of
the resulting state, so no separate definition is needed. -/
def cbor_open_array (state : cbor_writer_state_t) : cbor_writer_state_t :=
  if state.nesting_depth = 0 then { state with buffer := none, buffer_size := 0 }
  else
    { state with
        nesting_depth := state.nesting_depth - 1,
        objects := fun i =>
          if i = state.nesting_depth - 1 then 0 else state.objects i }

/-- `cbor_wrap_array` (cbor.c).  The C return value equals the `buffer`
field of the resulting state (`NULL` on every failure path). -/
def cbor_wrap_array (state : cbor_writer_state_t) : cbor_writer_state_t :=
  if state.nesting_depth = CBOR_MAX_NESTING then
    { state with buffer := none, buffer_size := 0 }
  else
    let s1 := prepend_unsigned state (state.objects state.nesting_depth)
    match s1.buffer with
    | none => s1
    | some w =>
      increment { s1 with buffer := some (or_head CBOR_MAJOR_TYPE_ARRAY w),
                          nesting_depth := s1.nesting_depth + 1 }

/-- `cbor_open_map` (cbor.c): alias of `cbor_open_array`. -/
def cbor_open_map (state : cbor_writer_state_t) : cbor_writer_state_t :=
  cbor_open_array state

/-- `cbor_wrap_map` (cbor.c): requires an even item counter, halves it. -/
def cbor_wrap_map (state : cbor_writer_state_t) : cbor_writer_state_t :=
  if state.nesting_depth = CBOR_MAX_NESTING
      ∨ (state.objects state.nesting_depth) &&& 1 ≠ 0 then
    { state with buffer := none, buffer_size := 0 }
  else
    let s1 := prepend_unsigned state ((state.objects state.nesting_depth) >>> 1)
    match s1.buffer with
    | none => s1
    | some w =>
      increment { s1 with buffer := some (or_head CBOR_MAJOR_TYPE_MAP w),
                          nesting_depth := s1.nesting_depth + 1 }

/-- static `prepend_simple` (cbor.c).  On exhaustion it nulls `buffer`
without touching `buffer_size` (which is zero) and skips `increment`. -/
def prepend_simple (state : cbor_writer_state_t) (value : Nat) :
    cbor_writer_state_t :=
  if state.buffer_size = 0 then { state with buffer := none }
  else
    increment { state with buffer := state.buffer.map (fun w => value :: w),
                           buffer_size := state.buffer_size - 1 }

/-- `cbor_prepend_null` (cbor.c). -/
def cbor_prepend_null (state : cbor_writer_state_t) : cbor_writer_state_t :=
  prepend_simple state CBOR_SIMPLE_VALUE_NULL

/-- `cbor_prepend_undefined` (cbor.c). -/
def cbor_prepend_undefined (state : cbor_writer_state_t) : cbor_writer_state_t :=
  prepend_simple state CBOR_SIMPLE_VALUE_UNDEFINED

/-- `cbor_prepend_bool` (cbor.c). -/
def cbor_prepend_bool (state : cbor_writer_state_t) (boolean : Bool) :
    cbor_writer_state_t :=
  prepend_simple state
    (if boolean then CBOR_SIMPLE_VALUE_TRUE else CBOR_SIMPLE_VALUE_FALSE)

/-- `cbor_init_reader` (cbor.c). -/
def cbor_init_reader (cbor : List Nat) (cbor_size : Nat) : cbor_reader_state_t :=
  { cbor := cbor, cbor_size := cbor_size }

/-- `cbor_read_next` (cbor.c): peek `*cbor & 0xE0`; `none` models the
`CBOR_MAJOR_TYPE_NONE` sentinel.  The C function does not write to the
state, which the embedding reflects by not returning a state. -/
def cbor_read_next (state : cbor_reader_state_t) : Option Nat :=
  if state.cbor_size = 0 then none
  else some ((state.cbor.headD 0) &&& 0xE0)

/-- The trailing-argument read reached from the switch in
`cbor_read_unsigned` (cbor.c): bounds check, then the big-endian
accumulation loop `*value = *value * 256 + *cbor++`. -/
def read_be (bytes : List Nat) : Nat :=
  bytes.foldl (fun acc b => acc * 256 + b) 0

/-- Code after the switch in `cbor_read_unsigned` (cbor.c): `s1` is the
state after the initial byte was consumed. -/
def read_trailing (s1 : cbor_reader_state_t) (size bytes_to_read : Nat) :
    Option (Nat × Nat) × cbor_reader_state_t :=
  if s1.cbor_size < bytes_to_read then (none, s1)
  else (some (size, read_be (s1.cbor.take bytes_to_read)),
        ⟨s1.cbor.drop bytes_to_read, s1.cbor_size - bytes_to_read⟩)

/-- `cbor_read_unsigned` (cbor.c).  The first component models the pair
(returned `cbor_size_t`, `*value`); `none` is `CBOR_SIZE_NONE` (on which
paths the C code leaves `*value` unwritten). -/
def cbor_read_unsigned (state : cbor_reader_state_t) :
    Option (Nat × Nat) × cbor_reader_state_t :=
  if state.cbor_size = 0 then (none, state)
  else
    let size := (state.cbor.headD 0) &&& 0x1F
    let s1 : cbor_reader_state_t := ⟨state.cbor.tail, state.cbor_size - 1⟩
    if size < CBOR_SIZE_1 then (some (CBOR_SIZE_1, size), s1)
    else if size = CBOR_SIZE_1 then read_trailing s1 size 1
    else if size = CBOR_SIZE_2 then read_trailing s1 size 2
    else if size = CBOR_SIZE_4 then read_trailing s1 size 4
    else if size = CBOR_SIZE_8 then read_trailing s1 size 8
    else (none, s1)

/-- static `read_byte_or_text_string` (cbor.c).  The first component models
(payload pointer, `*size`): the payload bytes referenced by the returned
pointer, or `none` for `NULL`. -/
def read_byte_or_text_string (state : cbor_reader_state_t) :
    Option (List Nat × Nat) × cbor_reader_state_t :=
  match cbor_read_unsigned state with
  | (none, s1) => (none, s1)
  | (some (_, value), s1) =>
    if SIZE_MAX < value then (none, s1)
    else if s1.cbor_size < value then (none, s1)
    else (some (s1.cbor.take value, value),
          ⟨s1.cbor.drop value, s1.cbor_size - value⟩)

/-- `cbor_read_data` (cbor.c). -/
def cbor_read_data (state : cbor_reader_state_t) :
    Option (List Nat × Nat) × cbor_reader_state_t :=
  if cbor_read_next state ≠ some CBOR_MAJOR_TYPE_BYTE_STRING then (none, state)
  else read_byte_or_text_string state

/-- `cbor_read_text` (cbor.c). -/
def cbor_read_text (state : cbor_reader_state_t) :
    Option (List Nat × Nat) × cbor_reader_state_t :=
  if cbor_read_next state ≠ some CBOR_MAJOR_TYPE_TEXT_STRING then (none, state)
  else read_byte_or_text_string state

/-- static `read_array_or_map` (cbor.c): `SIZE_MAX` is the error sentinel. -/
def read_array_or_map (state : cbor_reader_state_t) :
    Nat × cbor_reader_state_t :=
  match cbor_read_unsigned state with
  | (none, s1) => (SIZE_MAX, s1)
  | (some (_, value), s1) =>
    if SIZE_MAX ≤ value then (SIZE_MAX, s1) else (value, s1)

/-- `cbor_read_array` (cbor.c). -/
def cbor_read_array (state : cbor_reader_state_t) :
    Nat × cbor_reader_state_t :=
  if cbor_read_next state ≠ some CBOR_MAJOR_TYPE_ARRAY then (SIZE_MAX, state)
  else read_array_or_map state

/-- `cbor_read_map` (cbor.c). -/
def cbor_read_map (state : cbor_reader_state_t) :
    Nat × cbor_reader_state_t :=
  if cbor_read_next state ≠ some CBOR_MAJOR_TYPE_MAP then (SIZE_MAX, state)
  else read_array_or_map state

/-- `cbor_read_simple` (cbor.c): consume one byte verbatim; `none` models
`CBOR_SIMPLE_VALUE_NONE`. -/
def cbor_read_simple (state : cbor_reader_state_t) :
    Option Nat × cbor_reader_state_t :=
  if state.cbor_size = 0 then (none, state)
  else (some (state.cbor.headD 0), ⟨state.cbor.tail, state.cbor_size - 1⟩)

/-- One public writer call, for quantifying over call sequences. -/
inductive writer_op where
  | op_prepend_unsigned (v : Nat)
  | op_prepend_data (d : List Nat)
  | op_prepend_text (t : List Nat)
  | op_prepend_object (d : List Nat)
  | op_wrap_data (n : Nat)
  | op_open_array
  | op_open_map
  | op_wrap_array
  | op_wrap_map
  | op_prepend_null
  | op_prepend_undefined
  | op_prepend_bool (b : Bool)

/-- Apply one public writer call to a writer state. -/
def apply_op (state : cbor_writer_state_t) : writer_op → cbor_writer_state_t
  | .op_prepend_unsigned v => cbor_prepend_unsigned state v
  | .op_prepend_data d => cbor_prepend_data state d
  | .op_prepend_text t => cbor_prepend_text state t
  | .op_prepend_object d => cbor_prepend_object state d
  | .op_wrap_data n => cbor_wrap_data state n
  | .op_open_array => cbor_open_array state
  | .op_open_map => cbor_open_map state
  | .op_wrap_array => cbor_wrap_array state
  | .op_wrap_map => cbor_wrap_map state
  | .op_prepend_null => cbor_prepend_null state
  | .op_prepend_undefined => cbor_prepend_undefined state
  | .op_prepend_bool b => cbor_prepend_bool state b

/-- Apply a sequence of public writer calls, first call first. -/
def apply_ops (state : cbor_writer_state_t) (ops : List writer_op) :
    cbor_writer_state_t :=
  ops.foldl apply_op state

/-- The calls that produce exactly one item (everything except container
open/wrap). -/
def isItem : writer_op → Bool
  | .op_open_array => false
  | .op_open_map => false
  | .op_wrap_array => false
  | .op_wrap_map => false
  | _ => true

example :
    cbor_stop_writer (cbor_wrap_array (cbor_open_array (cbor_init_writer 4)))
      = some [0x80] := by decide
example :
    cbor_stop_writer (cbor_wrap_array (cbor_prepend_unsigned
      (cbor_open_array (cbor_init_writer 4)) 123)) = some [0x81, 0x18, 0x7B] := by
  decide
example :
    cbor_stop_writer (cbor_wrap_array (cbor_prepend_data (cbor_prepend_unsigned
      (cbor_open_array (cbor_init_writer 8)) 123) [0x0A, 0x0B, 0x0C]))
      = some [0x82, 0x43, 0x0A, 0x0B, 0x0C, 0x18, 0x7B] := by decide
example :
    cbor_stop_writer (cbor_wrap_map (cbor_prepend_unsigned (cbor_prepend_bool
      (cbor_open_map (cbor_init_writer 4)) true) 1)) = some [0xA1, 0x01, 0xF5] := by
  decide
example :
    cbor_stop_writer (cbor_wrap_array (cbor_prepend_unsigned
      (cbor_open_array (cbor_init_writer 2)) 123)) = none := by decide
example : (cbor_read_array (cbor_init_reader [0x82, 0x43] 2)).1 = 2 := by decide
example :
    (cbor_read_data (cbor_init_reader [0x43, 0x0A, 0x0B, 0x0C] 4)).1
      = some ([0x0A, 0x0B, 0x0C], 3) := by decide

lemma be_bytes_length (v n : Nat) : (be_bytes v n).length = n := by
  induction n generalizing v with
  | zero => rfl
  | succ n ih => simp [be_bytes, ih]


lemma be_mod (v n : Nat) :
    v / 256 % 256 ^ n * 256 + v % 256 = v % 256 ^ (n + 1) := by
  rw [pow_succ, mul_comm (256 ^ n) 256, Nat.mod_mul]
  ring

lemma foldl_be (n v a : Nat) :
    (be_bytes v n).foldl (fun acc b => acc * 256 + b) a
      = a * 256 ^ n + v % 256 ^ n := by
  induction n generalizing v a with
  | zero => simp [be_bytes, Nat.mod_one]
  | succ n ih =>
    rw [be_bytes, List.foldl_append, ih]
    simp only [List.foldl_cons, List.foldl_nil]
    rw [← be_mod]
    ring

lemma read_be_be_bytes (v n : Nat) (h : v < 256 ^ n) :
    read_be (be_bytes v n) = v := by
  unfold read_be
  rw [foldl_be]
  simp [Nat.mod_eq_of_lt h]

lemma lor_mask :
    ∀ j < 32, ∀ m < 8,
      (j ||| (m * 32)) &&& 31 = j ∧ (j ||| (m * 32)) &&& 224 = m * 32 := by
  decide

lemma jump_lt_32 (v : Nat) : jump_of v < 32 := by
  unfold jump_of CBOR_SIZE_1 CBOR_SIZE_2 CBOR_SIZE_4 CBOR_SIZE_8
  split
  · omega
  · split
    · omega
    · split
      · omega
      · split <;> omega

lemma unsigned_size_eq_ltc (v : Nat) : CBOR_UNSIGNED_SIZE v = ltc_of v + 1 := by
  unfold CBOR_UNSIGNED_SIZE ltc_of
  split
  · rfl
  · split
    · rfl
    · split
      · rfl
      · split <;> rfl

/-- The five size-class branches of `prepend_unsigned`, with the selected
`jump_byte`, `length_to_copy`, and width bound. -/
lemma branches (v : Nat) (hv : v < 2 ^ 64) :
    (v < CBOR_SIZE_1 ∧ jump_of v = v ∧ ltc_of v = 0)
  ∨ (¬ v < CBOR_SIZE_1 ∧ jump_of v = CBOR_SIZE_1 ∧ ltc_of v = 1 ∧ v < 256 ^ 1)
  ∨ (¬ v < CBOR_SIZE_1 ∧ jump_of v = CBOR_SIZE_2 ∧ ltc_of v = 2 ∧ v < 256 ^ 2)
  ∨ (¬ v < CBOR_SIZE_1 ∧ jump_of v = CBOR_SIZE_4 ∧ ltc_of v = 4 ∧ v < 256 ^ 4)
  ∨ (¬ v < CBOR_SIZE_1 ∧ jump_of v = CBOR_SIZE_8 ∧ ltc_of v = 8 ∧ v < 256 ^ 8) := by
  unfold jump_of ltc_of
  unfold CBOR_SIZE_1 at *
  split_ifs with h1 h2 h3 h4
  · exact Or.inl ⟨h1, rfl, rfl⟩
  · exact Or.inr (Or.inl ⟨h1, rfl, rfl, by norm_num; omega⟩)
  · exact Or.inr (Or.inr (Or.inl ⟨h1, rfl, rfl, by norm_num; omega⟩))
  · exact Or.inr (Or.inr (Or.inr (Or.inl ⟨h1, rfl, rfl, by norm_num; omega⟩)))
  · refine Or.inr (Or.inr (Or.inr (Or.inr ⟨h1, rfl, rfl, ?_⟩)))
    have h8 : (256 : Nat) ^ 8 = 2 ^ 64 := by norm_num
    omega

lemma read_trailing_exact (v n : Nat) (hvn : v < 256 ^ n) (sz : Nat)
    (rest : List Nat) :
    read_trailing ⟨be_bytes v n ++ rest, n + rest.length⟩ sz n
      = (some (sz, v), ⟨rest, rest.length⟩) := by
  have hbl : (be_bytes v n).length = n := be_bytes_length v n
  have hrb : read_be (be_bytes v n) = v := read_be_be_bytes v n hvn
  unfold read_trailing
  dsimp only
  rw [if_neg (by omega)]
  generalize hb : be_bytes v n = b at hbl hrb ⊢
  subst hbl
  rw [List.take_left, List.drop_left, hrb]
  congr 2
  omega

/-- Decoding the header bytes that `prepend_unsigned` selected for `v`
(with any major-type bits OR'd into the initial byte `h`) yields `v` and
consumes exactly the header. -/
lemma decode_hdr (v : Nat) (hv : v < 2 ^ 64) (h : Nat)
    (hh : h &&& 0x1F = jump_of v) (rest : List Nat) :
    cbor_read_unsigned ⟨h :: (be_bytes v (ltc_of v) ++ rest),
        (h :: (be_bytes v (ltc_of v) ++ rest)).length⟩
      = (some (if v < CBOR_SIZE_1 then CBOR_SIZE_1 else jump_of v, v),
         ⟨rest, rest.length⟩) := by
  rcases branches v hv with ⟨h1, hj, hl⟩ | ⟨h1, hj, hl, hp⟩ | ⟨h1, hj, hl, hp⟩
    | ⟨h1, hj, hl, hp⟩ | ⟨h1, hj, hl, hp⟩
  · rw [hl, if_pos h1]
    simp only [cbor_read_unsigned]
    rw [if_neg (by simp)]
    simp only [List.headD_cons, List.tail_cons, hh, hj]
    rw [if_pos h1]
    simp [be_bytes]
  · rw [hl, if_neg h1]
    simp only [cbor_read_unsigned]
    rw [if_neg (by simp)]
    simp only [List.headD_cons, List.tail_cons, List.length_cons,
      List.length_append, be_bytes_length, Nat.add_sub_cancel, hh, hj]
    rw [if_neg (by decide), if_pos trivial]
    exact read_trailing_exact v 1 hp CBOR_SIZE_1 rest
  · rw [hl, if_neg h1]
    simp only [cbor_read_unsigned]
    rw [if_neg (by simp)]
    simp only [List.headD_cons, List.tail_cons, List.length_cons,
      List.length_append, be_bytes_length, Nat.add_sub_cancel, hh, hj]
    rw [if_neg (by decide), if_neg (by decide), if_pos trivial]
    exact read_trailing_exact v 2 hp CBOR_SIZE_2 rest
  · rw [hl, if_neg h1]
    simp only [cbor_read_unsigned]
    rw [if_neg (by simp)]
    simp only [List.headD_cons, List.tail_cons, List.length_cons,
      List.length_append, be_bytes_length, Nat.add_sub_cancel, hh, hj]
    rw [if_neg (by decide), if_neg (by decide), if_neg (by decide), if_pos trivial]
    exact read_trailing_exact v 4 hp CBOR_SIZE_4 rest
  · rw [hl, if_neg h1]
    simp only [cbor_read_unsigned]
    rw [if_neg (by simp)]
    simp only [List.headD_cons, List.tail_cons, List.length_cons,
      List.length_append, be_bytes_length, Nat.add_sub_cancel, hh, hj]
    rw [if_neg (by decide), if_neg (by decide), if_neg (by decide),
      if_neg (by decide), if_pos trivial]
    exact read_trailing_exact v 8 hp CBOR_SIZE_8 rest

lemma prepend_unsigned_poison (s : cbor_writer_state_t) (v : Nat)
    (h : s.buffer_size ≤ ltc_of v) :
    prepend_unsigned s v = { s with buffer := none, buffer_size := 0 } := by
  simp only [prepend_unsigned]
  rw [if_pos h]

lemma prepend_unsigned_success (s : cbor_writer_state_t) (v : Nat)
    (h : ltc_of v < s.buffer_size) :
    prepend_unsigned s v =
      { s with
          buffer := s.buffer.map
            (fun w => jump_of v :: (be_bytes v (ltc_of v) ++ w)),
          buffer_size := s.buffer_size - ltc_of v - 1 } := by
  simp only [prepend_unsigned]
  rw [if_neg (by omega)]

/-- The latched error state: `buffer == NULL && buffer_size == 0`. -/
def PoisonedZ (s : cbor_writer_state_t) : Prop :=
  s.buffer = none ∧ s.buffer_size = 0

lemma poison_increment (s : cbor_writer_state_t) (h : PoisonedZ s) :
    PoisonedZ (increment s) := by
  unfold increment
  split
  · exact h
  · exact h

lemma poison_prepend_object (s : cbor_writer_state_t) (d : List Nat)
    (h : PoisonedZ s) : PoisonedZ (prepend_object s d) := by
  obtain ⟨hb, hs⟩ := h
  unfold prepend_object
  split_ifs with h1 h2
  · exact ⟨hb, hs⟩
  · exact ⟨rfl, rfl⟩
  · exfalso; omega

lemma poison_prepend_unsigned (s : cbor_writer_state_t) (v : Nat)
    (h : PoisonedZ s) : PoisonedZ (prepend_unsigned s v) := by
  rw [prepend_unsigned_poison s v (by rw [h.2]; omega)]
  exact ⟨rfl, rfl⟩

lemma poison_cbor_prepend_unsigned (s : cbor_writer_state_t) (v : Nat)
    (h : PoisonedZ s) : PoisonedZ (cbor_prepend_unsigned s v) :=
  poison_increment _ (poison_prepend_unsigned s v h)

lemma poison_cbor_wrap_data (s : cbor_writer_state_t) (n : Nat)
    (h : PoisonedZ s) : PoisonedZ (cbor_wrap_data s n) := by
  have h1 := poison_cbor_prepend_unsigned s n h
  simp only [cbor_wrap_data, h1.1]
  exact h1

lemma poison_cbor_prepend_data (s : cbor_writer_state_t) (d : List Nat)
    (h : PoisonedZ s) : PoisonedZ (cbor_prepend_data s d) :=
  poison_cbor_wrap_data _ _ (poison_prepend_object s d h)

lemma poison_cbor_prepend_text (s : cbor_writer_state_t) (t : List Nat)
    (h : PoisonedZ s) : PoisonedZ (cbor_prepend_text s t) := by
  have h1 := poison_cbor_prepend_unsigned (prepend_object s t) t.length
    (poison_prepend_object s t h)
  simp only [cbor_prepend_text, h1.1]
  exact h1

lemma poison_cbor_open_array (s : cbor_writer_state_t) (h : PoisonedZ s) :
    PoisonedZ (cbor_open_array s) := by
  unfold cbor_open_array
  split
  · exact ⟨rfl, rfl⟩
  · exact h

lemma poison_cbor_wrap_array (s : cbor_writer_state_t) (h : PoisonedZ s) :
    PoisonedZ (cbor_wrap_array s) := by
  by_cases hd : s.nesting_depth = CBOR_MAX_NESTING
  · simp only [cbor_wrap_array, if_pos hd]
    exact ⟨rfl, rfl⟩
  · have h1 := poison_prepend_unsigned s (s.objects s.nesting_depth) h
    simp only [cbor_wrap_array, if_neg hd, h1.1]
    exact h1

lemma poison_cbor_wrap_map (s : cbor_writer_state_t) (h : PoisonedZ s) :
    PoisonedZ (cbor_wrap_map s) := by
  by_cases hd : s.nesting_depth = CBOR_MAX_NESTING
      ∨ (s.objects s.nesting_depth) &&& 1 ≠ 0
  · simp only [cbor_wrap_map, if_pos hd]
    exact ⟨rfl, rfl⟩
  · have h1 := poison_prepend_unsigned s ((s.objects s.nesting_depth) >>> 1) h
    simp only [cbor_wrap_map, if_neg hd, h1.1]
    exact h1

lemma poison_prepend_simple (s : cbor_writer_state_t) (v : Nat)
    (h : PoisonedZ s) : PoisonedZ (prepend_simple s v) := by
  obtain ⟨hb, hs⟩ := h
  unfold prepend_simple
  rw [if_pos hs]
  exact ⟨rfl, hs⟩

lemma poison_step (s : cbor_writer_state_t) (op : writer_op)
    (h : PoisonedZ s) : PoisonedZ (apply_op s op) := by
  cases op with
  | op_prepend_unsigned v => exact poison_cbor_prepend_unsigned s v h
  | op_prepend_data d => exact poison_cbor_prepend_data s d h
  | op_prepend_text t => exact poison_cbor_prepend_text s t h
  | op_prepend_object d =>
    exact poison_increment _ (poison_prepend_object s d h)
  | op_wrap_data n => exact poison_cbor_wrap_data s n h
  | op_open_array => exact poison_cbor_open_array s h
  | op_open_map => exact poison_cbor_open_array s h
  | op_wrap_array => exact poison_cbor_wrap_array s h
  | op_wrap_map => exact poison_cbor_wrap_map s h
  | op_prepend_null => exact poison_prepend_simple s _ h
  | op_prepend_undefined => exact poison_prepend_simple s _ h
  | op_prepend_bool b => exact poison_prepend_simple s _ h

lemma poison_ops (s : cbor_writer_state_t) (ops : List writer_op)
    (h : PoisonedZ s) : PoisonedZ (apply_ops s ops) := by
  induction ops generalizing s with
  | nil => exact h
  | cons op rest ih =>
    exact ih (apply_op s op) (poison_step s op h)

lemma increment_fields (s : cbor_writer_state_t) :
    (increment s).buffer = s.buffer ∧ (increment s).buffer_size = s.buffer_size
      ∧ (increment s).nesting_depth = s.nesting_depth := by
  unfold increment
  split
  · exact ⟨rfl, rfl, rfl⟩
  · exact ⟨rfl, rfl, rfl⟩

lemma increment_objects_self (s : cbor_writer_state_t)
    (hd : s.nesting_depth ≠ CBOR_MAX_NESTING) :
    (increment s).objects s.nesting_depth = s.objects s.nesting_depth + 1 := by
  unfold increment
  rw [if_neg hd]
  simp

lemma increment_top (s : cbor_writer_state_t)
    (hd : s.nesting_depth = CBOR_MAX_NESTING) : increment s = s := by
  unfold increment
  rw [if_pos hd]

lemma prepend_object_fields (s : cbor_writer_state_t) (d : List Nat) :
    (prepend_object s d).nesting_depth = s.nesting_depth
      ∧ (prepend_object s d).objects = s.objects := by
  unfold prepend_object
  split_ifs <;> exact ⟨rfl, rfl⟩

lemma prepend_unsigned_fields (s : cbor_writer_state_t) (v : Nat) :
    (prepend_unsigned s v).nesting_depth = s.nesting_depth
      ∧ (prepend_unsigned s v).objects = s.objects := by
  simp only [prepend_unsigned]
  split_ifs <;> exact ⟨rfl, rfl⟩

lemma stop_poisoned (s : cbor_writer_state_t) (h : PoisonedZ s) :
    cbor_stop_writer s = none := by
  unfold cbor_stop_writer
  split
  · exact h.1
  · rfl

/-- Top-level `cbor_prepend_unsigned` on a fresh writer with enough room. -/
lemma encode_top (N v : Nat) (hlt : ltc_of v < N) :
    cbor_prepend_unsigned (cbor_init_writer N) v =
      { buffer := some (jump_of v :: be_bytes v (ltc_of v)),
        buffer_size := N - ltc_of v - 1,
        nesting_depth := CBOR_MAX_NESTING,
        objects := fun _ => 0 } := by
  unfold cbor_prepend_unsigned
  rw [prepend_unsigned_success (cbor_init_writer N) v hlt, increment_top _ rfl]
  unfold cbor_init_writer
  simp

/-- Top-level `cbor_prepend_unsigned` on a fresh writer one byte short. -/
lemma encode_top_short (N v : Nat) (hlt : N ≤ ltc_of v) :
    cbor_prepend_unsigned (cbor_init_writer N) v =
      { buffer := none, buffer_size := 0,
        nesting_depth := CBOR_MAX_NESTING, objects := fun _ => 0 } := by
  unfold cbor_prepend_unsigned
  rw [prepend_unsigned_poison (cbor_init_writer N) v hlt, increment_top _ rfl]
  rfl

lemma prepend_object_init (N : Nat) (d : List Nat) (h : d.length ≤ N) :
    prepend_object (cbor_init_writer N) d =
      { buffer := some d, buffer_size := N - d.length,
        nesting_depth := CBOR_MAX_NESTING, objects := fun _ => 0 } := by
  unfold prepend_object cbor_init_writer
  split_ifs with h1 h2
  · have hd0 : d = [] := List.length_eq_zero.mp h1
    subst hd0
    simp
  · exfalso
    have h3 : N < d.length := h2
    omega
  · simp

/-- Top-level `cbor_prepend_data` on a fresh writer with enough room. -/
lemma encode_data_top (N : Nat) (d : List Nat)
    (hN : CBOR_BYTE_STRING_SIZE d.length ≤ N) :
    cbor_prepend_data (cbor_init_writer N) d =
      { buffer := some ((jump_of d.length ||| CBOR_MAJOR_TYPE_BYTE_STRING)
            :: (be_bytes d.length (ltc_of d.length) ++ d)),
        buffer_size := N - d.length - ltc_of d.length - 1,
        nesting_depth := CBOR_MAX_NESTING,
        objects := fun _ => 0 } := by
  have hus := unsigned_size_eq_ltc d.length
  have hdn : d.length ≤ N := by unfold CBOR_BYTE_STRING_SIZE at hN; omega
  unfold cbor_prepend_data
  rw [prepend_object_init N d hdn]
  unfold cbor_wrap_data cbor_prepend_unsigned
  rw [prepend_unsigned_success _ d.length (by
        show ltc_of d.length < N - d.length
        unfold CBOR_BYTE_STRING_SIZE at hN
        omega),
      increment_top _ rfl]
  simp [or_head]

/-- Top-level `cbor_prepend_data` on a fresh writer one byte short of the
header: the raw bytes fit but the header poisons. -/
lemma encode_data_top_short (N : Nat) (d : List Nat)
    (hge : d.length ≤ N) (hlt : N - d.length ≤ ltc_of d.length) :
    cbor_prepend_data (cbor_init_writer N) d =
      { buffer := none, buffer_size := 0,
        nesting_depth := CBOR_MAX_NESTING, objects := fun _ => 0 } := by
  unfold cbor_prepend_data
  rw [prepend_object_init N d hge]
  unfold cbor_wrap_data cbor_prepend_unsigned
  rw [prepend_unsigned_poison _ d.length hlt, increment_top _ rfl]

lemma increment_step (s : cbor_writer_state_t)
    (hd : s.nesting_depth = CBOR_MAX_NESTING - 1) :
    (increment s).nesting_depth = CBOR_MAX_NESTING - 1 ∧
    (increment s).objects (CBOR_MAX_NESTING - 1)
      = s.objects (CBOR_MAX_NESTING - 1) + 1 := by
  have hne : s.nesting_depth ≠ CBOR_MAX_NESTING := by rw [hd]; decide
  constructor
  · rw [(increment_fields s).2.2, hd]
  · have h3 := increment_objects_self s hne
    rwa [hd] at h3

lemma cpu_step (s : cbor_writer_state_t) (v : Nat)
    (hd : s.nesting_depth = CBOR_MAX_NESTING - 1) :
    (cbor_prepend_unsigned s v).nesting_depth = CBOR_MAX_NESTING - 1 ∧
    (cbor_prepend_unsigned s v).objects (CBOR_MAX_NESTING - 1)
      = s.objects (CBOR_MAX_NESTING - 1) + 1 := by
  have hf := prepend_unsigned_fields s v
  have hstep := increment_step (prepend_unsigned s v) (by rw [hf.1]; exact hd)
  unfold cbor_prepend_unsigned
  exact ⟨hstep.1, by rw [hstep.2, hf.2]⟩

lemma wrap_data_step (s : cbor_writer_state_t) (n : Nat)
    (hd : s.nesting_depth = CBOR_MAX_NESTING - 1) :
    (cbor_wrap_data s n).nesting_depth = CBOR_MAX_NESTING - 1 ∧
    (cbor_wrap_data s n).objects (CBOR_MAX_NESTING - 1)
      = s.objects (CBOR_MAX_NESTING - 1) + 1 := by
  have hc := cpu_step s n hd
  simp only [cbor_wrap_data]
  cases hb : (cbor_prepend_unsigned s n).buffer with
  | none => simpa [hb] using hc
  | some w => simpa [hb] using hc

lemma cpo_step (s : cbor_writer_state_t) (d : List Nat)
    (hd : s.nesting_depth = CBOR_MAX_NESTING - 1) :
    (cbor_prepend_object s d).nesting_depth = CBOR_MAX_NESTING - 1 ∧
    (cbor_prepend_object s d).objects (CBOR_MAX_NESTING - 1)
      = s.objects (CBOR_MAX_NESTING - 1) + 1 := by
  have hf := prepend_object_fields s d
  have hstep := increment_step (prepend_object s d) (by rw [hf.1]; exact hd)
  unfold cbor_prepend_object
  exact ⟨hstep.1, by rw [hstep.2, hf.2]⟩

lemma data_step (s : cbor_writer_state_t) (d : List Nat)
    (hd : s.nesting_depth = CBOR_MAX_NESTING - 1) :
    (cbor_prepend_data s d).nesting_depth = CBOR_MAX_NESTING - 1 ∧
    (cbor_prepend_data s d).objects (CBOR_MAX_NESTING - 1)
      = s.objects (CBOR_MAX_NESTING - 1) + 1 := by
  have hf := prepend_object_fields s d
  have hw := wrap_data_step (prepend_object s d) d.length (by rw [hf.1]; exact hd)
  unfold cbor_prepend_data
  exact ⟨hw.1, by rw [hw.2, hf.2]⟩

lemma text_step (s : cbor_writer_state_t) (t : List Nat)
    (hd : s.nesting_depth = CBOR_MAX_NESTING - 1) :
    (cbor_prepend_text s t).nesting_depth = CBOR_MAX_NESTING - 1 ∧
    (cbor_prepend_text s t).objects (CBOR_MAX_NESTING - 1)
      = s.objects (CBOR_MAX_NESTING - 1) + 1 := by
  have hf := prepend_object_fields s t
  have hc := cpu_step (prepend_object s t) t.length (by rw [hf.1]; exact hd)
  simp only [cbor_prepend_text]
  cases hb : (cbor_prepend_unsigned (prepend_object s t) t.length).buffer with
  | none =>
    refine ⟨by simpa [hb] using hc.1, ?_⟩
    have := hc.2
    rw [hf.2] at this
    simpa [hb] using this
  | some w =>
    refine ⟨by simpa [hb] using hc.1, ?_⟩
    have := hc.2
    rw [hf.2] at this
    simpa [hb] using this

lemma simple_step (s : cbor_writer_state_t) (v : Nat)
    (hd : s.nesting_depth = CBOR_MAX_NESTING - 1) :
    (prepend_simple s v).nesting_depth = CBOR_MAX_NESTING - 1 ∧
    (PoisonedZ (prepend_simple s v) ∨
      (prepend_simple s v).objects (CBOR_MAX_NESTING - 1)
        = s.objects (CBOR_MAX_NESTING - 1) + 1) := by
  unfold prepend_simple
  by_cases hz : s.buffer_size = 0
  · rw [if_pos hz]
    exact ⟨hd, Or.inl ⟨rfl, hz⟩⟩
  · rw [if_neg hz]
    have hstep := increment_step
      { s with buffer := s.buffer.map (fun w => v :: w),
               buffer_size := s.buffer_size - 1 } hd
    exact ⟨hstep.1, Or.inr hstep.2⟩

lemma item_step (s : cbor_writer_state_t) (op : writer_op)
    (hop : isItem op = true) (hd : s.nesting_depth = CBOR_MAX_NESTING - 1) :
    (apply_op s op).nesting_depth = CBOR_MAX_NESTING - 1 ∧
    (PoisonedZ (apply_op s op) ∨
      (apply_op s op).objects (CBOR_MAX_NESTING - 1)
        = s.objects (CBOR_MAX_NESTING - 1) + 1) := by
  cases op with
  | op_prepend_unsigned v =>
    have h := cpu_step s v hd
    exact ⟨h.1, Or.inr h.2⟩
  | op_prepend_data d =>
    have h := data_step s d hd
    exact ⟨h.1, Or.inr h.2⟩
  | op_prepend_text t =>
    have h := text_step s t hd
    exact ⟨h.1, Or.inr h.2⟩
  | op_prepend_object d =>
    have h := cpo_step s d hd
    exact ⟨h.1, Or.inr h.2⟩
  | op_wrap_data n =>
    have h := wrap_data_step s n hd
    exact ⟨h.1, Or.inr h.2⟩
  | op_open_array => exact absurd hop (by decide)
  | op_open_map => exact absurd hop (by decide)
  | op_wrap_array => exact absurd hop (by decide)
  | op_wrap_map => exact absurd hop (by decide)
  | op_prepend_null => exact simple_step s _ hd
  | op_prepend_undefined => exact simple_step s _ hd
  | op_prepend_bool b => exact simple_step s _ hd

lemma items_inv (ops : List writer_op)
    (hops : ∀ op ∈ ops, isItem op = true) (s : cbor_writer_state_t)
    (hd : s.nesting_depth = CBOR_MAX_NESTING - 1) :
    (apply_ops s ops).nesting_depth = CBOR_MAX_NESTING - 1 ∧
    (PoisonedZ (apply_ops s ops) ∨
      (apply_ops s ops).objects (CBOR_MAX_NESTING - 1)
        = s.objects (CBOR_MAX_NESTING - 1) + ops.length) := by
  induction ops generalizing s with
  | nil => exact ⟨hd, Or.inr (by simp [apply_ops])⟩
  | cons op rest ih =>
    have hstep := item_step s op (hops op (by simp)) hd
    have hrest := ih (fun o ho => hops o (by simp [ho])) (apply_op s op) hstep.1
    have happ : apply_ops s (op :: rest) = apply_ops (apply_op s op) rest := rfl
    rw [happ]
    refine ⟨hrest.1, ?_⟩
    rcases hrest.2 with hp | hcnt
    · exact Or.inl hp
    · rcases hstep.2 with hp1 | hcnt1
      · exact Or.inl (poison_ops _ rest hp1)
      · right
        rw [hcnt, hcnt1]
        simp
        omega

lemma wrap_array_buffer (s : cbor_writer_state_t) (c : Nat)
    (hd : s.nesting_depth = CBOR_MAX_NESTING - 1)
    (hobj : s.objects (CBOR_MAX_NESTING - 1) = c)
    (hsz : ltc_of c < s.buffer_size) :
    (cbor_wrap_array s).buffer
      = s.buffer.map (fun w => (jump_of c ||| CBOR_MAJOR_TYPE_ARRAY)
          :: (be_bytes c (ltc_of c) ++ w)) := by
  have hoc : s.objects s.nesting_depth = c := by rw [hd]; exact hobj
  simp only [cbor_wrap_array]
  rw [if_neg (by rw [hd]; decide), hoc, prepend_unsigned_success s c hsz]
  cases hb : s.buffer with
  | none => simp [hb]
  | some w =>
    simp only [hb, Option.map_some']
    rw [(increment_fields _).1]
    simp [or_head]

lemma wrap_array_small (s : cbor_writer_state_t) (c : Nat)
    (hd : s.nesting_depth = CBOR_MAX_NESTING - 1)
    (hobj : s.objects (CBOR_MAX_NESTING - 1) = c)
    (hsz : s.buffer_size ≤ ltc_of c) :
    (cbor_wrap_array s).buffer = none := by
  have hoc : s.objects s.nesting_depth = c := by rw [hd]; exact hobj
  simp only [cbor_wrap_array]
  rw [if_neg (by rw [hd]; decide), hoc, prepend_unsigned_poison s c hsz]

lemma wrap_map_cond (s : cbor_writer_state_t) (k : Nat)
    (hd : s.nesting_depth = CBOR_MAX_NESTING - 1)
    (hobj : s.objects (CBOR_MAX_NESTING - 1) = 2 * k) :
    ¬ (s.nesting_depth = CBOR_MAX_NESTING
        ∨ (s.objects s.nesting_depth) &&& 1 ≠ 0) := by
  rw [hd, hobj]
  simp [Nat.and_one_is_mod, Nat.mul_mod_right]
  decide

lemma wrap_map_buffer (s : cbor_writer_state_t) (k : Nat)
    (hd : s.nesting_depth = CBOR_MAX_NESTING - 1)
    (hobj : s.objects (CBOR_MAX_NESTING - 1) = 2 * k)
    (hsz : ltc_of k < s.buffer_size) :
    (cbor_wrap_map s).buffer
      = s.buffer.map (fun w => (jump_of k ||| CBOR_MAJOR_TYPE_MAP)
          :: (be_bytes k (ltc_of k) ++ w)) := by
  have hoc : s.objects s.nesting_depth = 2 * k := by rw [hd]; exact hobj
  have hsr : (2 * k) >>> 1 = k := by
    rw [Nat.shiftRight_one]
    omega
  simp only [cbor_wrap_map]
  rw [if_neg (wrap_map_cond s k hd hobj), hoc, hsr,
    prepend_unsigned_success s k hsz]
  cases hb : s.buffer with
  | none => simp [hb]
  | some w =>
    simp only [hb, Option.map_some']
    rw [(increment_fields _).1]
    simp [or_head]

lemma wrap_map_small (s : cbor_writer_state_t) (k : Nat)
    (hd : s.nesting_depth = CBOR_MAX_NESTING - 1)
    (hobj : s.objects (CBOR_MAX_NESTING - 1) = 2 * k)
    (hsz : s.buffer_size ≤ ltc_of k) :
    (cbor_wrap_map s).buffer = none := by
  have hoc : s.objects s.nesting_depth = 2 * k := by rw [hd]; exact hobj
  have hsr : (2 * k) >>> 1 = k := by
    rw [Nat.shiftRight_one]
    omega
  simp only [cbor_wrap_map]
  rw [if_neg (wrap_map_cond s k hd hobj), hoc, hsr,
    prepend_unsigned_poison s k hsz]

lemma wrap_map_odd (s : cbor_writer_state_t)
    (hodd : s.objects s.nesting_depth % 2 = 1) :
    cbor_wrap_map s = { s with buffer := none, buffer_size := 0 } := by
  simp only [cbor_wrap_map]
  rw [if_pos (Or.inr (by rw [Nat.and_one_is_mod, hodd]; decide))]

lemma jump_and31 (v : Nat) : jump_of v &&& 0x1F = jump_of v := by
  have h := (lor_mask (jump_of v) (jump_lt_32 v) 0 (by norm_num)).1
  simpa using h

lemma head_mask_bs (k : Nat) :
    (jump_of k ||| CBOR_MAJOR_TYPE_BYTE_STRING) &&& 0xE0
        = CBOR_MAJOR_TYPE_BYTE_STRING
      ∧ (jump_of k ||| CBOR_MAJOR_TYPE_BYTE_STRING) &&& 0x1F = jump_of k := by
  have h := lor_mask (jump_of k) (jump_lt_32 k) 2 (by norm_num)
  unfold CBOR_MAJOR_TYPE_BYTE_STRING
  norm_num at h
  exact ⟨h.2, h.1⟩

lemma head_mask_array (k : Nat) :
    (jump_of k ||| CBOR_MAJOR_TYPE_ARRAY) &&& 0xE0 = CBOR_MAJOR_TYPE_ARRAY
      ∧ (jump_of k ||| CBOR_MAJOR_TYPE_ARRAY) &&& 0x1F = jump_of k := by
  have h := lor_mask (jump_of k) (jump_lt_32 k) 4 (by norm_num)
  unfold CBOR_MAJOR_TYPE_ARRAY
  norm_num at h
  exact ⟨h.2, h.1⟩

lemma head_mask_map (k : Nat) :
    (jump_of k ||| CBOR_MAJOR_TYPE_MAP) &&& 0xE0 = CBOR_MAJOR_TYPE_MAP
      ∧ (jump_of k ||| CBOR_MAJOR_TYPE_MAP) &&& 0x1F = jump_of k := by
  have h := lor_mask (jump_of k) (jump_lt_32 k) 5 (by norm_num)
  unfold CBOR_MAJOR_TYPE_MAP
  norm_num at h
  exact ⟨h.2, h.1⟩

lemma read_next_cons (b : Nat) (rest : List Nat) (n : Nat) (hn : n ≠ 0) :
    cbor_read_next ⟨b :: rest, n⟩ = some (b &&& 0xE0) := by
  unfold cbor_read_next
  rw [if_neg hn]
  rfl

/-- C1: for every unsigned `v < 2^64` and buffer of at least 9 bytes,
prepending `v` and stopping the writer succeeds, the output length matches
the shortest-form table `CBOR_UNSIGNED_SIZE`, and `cbor_read_unsigned` on
the output yields `v` back. -/
theorem unsigned_roundtrip_shortest (v N : Nat) (hv : v < 2 ^ 64)
    (hN : 9 ≤ N) :
    cbor_stop_writer (cbor_prepend_unsigned (cbor_init_writer N) v)
        = some (jump_of v :: be_bytes v (ltc_of v))
    ∧ (jump_of v :: be_bytes v (ltc_of v)).length = CBOR_UNSIGNED_SIZE v
    ∧ ((cbor_read_unsigned (cbor_init_reader
          (jump_of v :: be_bytes v (ltc_of v))
          (jump_of v :: be_bytes v (ltc_of v)).length)).1.map Prod.snd
        = some v) := by
  have hltc : ltc_of v ≤ 8 := by
    unfold ltc_of
    split_ifs <;> omega
  refine ⟨?_, ?_, ?_⟩
  · rw [encode_top N v (by omega)]
    rfl
  · rw [unsigned_size_eq_ltc]
    simp [be_bytes_length]
  · have hdec := decode_hdr v hv (jump_of v) (jump_and31 v) []
    unfold cbor_init_reader
    rw [show (jump_of v :: be_bytes v (ltc_of v))
        = jump_of v :: (be_bytes v (ltc_of v) ++ []) by simp]
    rw [hdec]
    simp

/-- Witness for C1 at `v = 1000`, `N = 9`. -/
theorem unsigned_roundtrip_shortest_witness :
    1000 < 2 ^ 64 ∧ 9 ≤ 9
    ∧ (cbor_stop_writer (cbor_prepend_unsigned (cbor_init_writer 9) 1000)
        = some (jump_of 1000 :: be_bytes 1000 (ltc_of 1000))
    ∧ (jump_of 1000 :: be_bytes 1000 (ltc_of 1000)).length
        = CBOR_UNSIGNED_SIZE 1000
    ∧ ((cbor_read_unsigned (cbor_init_reader
          (jump_of 1000 :: be_bytes 1000 (ltc_of 1000))
          (jump_of 1000 :: be_bytes 1000 (ltc_of 1000)).length)).1.map Prod.snd
        = some 1000)) :=
  ⟨by norm_num, by norm_num,
    unsigned_roundtrip_shortest 1000 9 (by norm_num) (by norm_num)⟩

/-- C6: encoding into a buffer of exactly the computed size succeeds with
the cursor at the buffer's base (`buffer_size = 0`); one byte less poisons,
for both `cbor_prepend_unsigned` and `cbor_prepend_data`. -/
theorem exact_fit_off_by_one (v : Nat) (d : List Nat) :
    (cbor_stop_writer (cbor_prepend_unsigned
          (cbor_init_writer (CBOR_UNSIGNED_SIZE v)) v)
        = some (jump_of v :: be_bytes v (ltc_of v))
      ∧ (cbor_prepend_unsigned
          (cbor_init_writer (CBOR_UNSIGNED_SIZE v)) v).buffer_size = 0)
    ∧ cbor_stop_writer (cbor_prepend_unsigned
        (cbor_init_writer (CBOR_UNSIGNED_SIZE v - 1)) v) = none
    ∧ (cbor_stop_writer (cbor_prepend_data
          (cbor_init_writer (CBOR_BYTE_STRING_SIZE d.length)) d)
        = some ((jump_of d.length ||| CBOR_MAJOR_TYPE_BYTE_STRING)
            :: (be_bytes d.length (ltc_of d.length) ++ d))
      ∧ (cbor_prepend_data
          (cbor_init_writer (CBOR_BYTE_STRING_SIZE d.length)) d).buffer_size
            = 0)
    ∧ cbor_stop_writer (cbor_prepend_data
        (cbor_init_writer (CBOR_BYTE_STRING_SIZE d.length - 1)) d) = none := by
  have hus := unsigned_size_eq_ltc v
  have husd := unsigned_size_eq_ltc d.length
  refine ⟨⟨?_, ?_⟩, ?_, ⟨?_, ?_⟩, ?_⟩
  · rw [encode_top (CBOR_UNSIGNED_SIZE v) v (by omega)]
    rfl
  · rw [encode_top (CBOR_UNSIGNED_SIZE v) v (by omega)]
    show CBOR_UNSIGNED_SIZE v - ltc_of v - 1 = 0
    omega
  · rw [encode_top_short (CBOR_UNSIGNED_SIZE v - 1) v (by omega)]
    rfl
  · rw [encode_data_top _ d (le_refl _)]
    rfl
  · rw [encode_data_top _ d (le_refl _)]
    show CBOR_BYTE_STRING_SIZE d.length - d.length - ltc_of d.length - 1 = 0
    unfold CBOR_BYTE_STRING_SIZE
    omega
  · rw [encode_data_top_short (CBOR_BYTE_STRING_SIZE d.length - 1) d
      (by unfold CBOR_BYTE_STRING_SIZE; omega)
      (by unfold CBOR_BYTE_STRING_SIZE; omega)]
    rfl

/-- C4: once a writer is poisoned (`buffer == NULL`, `buffer_size == 0`),
any finite sequence of public writer calls leaves `cbor_stop_writer`
returning the nil sentinel. -/
theorem poison_monotonicity (s : cbor_writer_state_t) (ops : List writer_op)
    (h1 : s.buffer = none) (h2 : s.buffer_size = 0) :
    cbor_stop_writer (apply_ops s ops) = none :=
  stop_poisoned _ (poison_ops s ops ⟨h1, h2⟩)

/-- Witness for C4 on a concrete poisoned state and call sequence. -/
theorem poison_monotonicity_witness :
    (cbor_writer_state_t.mk none 0 CBOR_MAX_NESTING (fun _ => 0)).buffer = none
    ∧ (cbor_writer_state_t.mk none 0 CBOR_MAX_NESTING
        (fun _ => 0)).buffer_size = 0
    ∧ cbor_stop_writer (apply_ops
        (cbor_writer_state_t.mk none 0 CBOR_MAX_NESTING (fun _ => 0))
        [writer_op.op_open_array, writer_op.op_prepend_unsigned 5,
         writer_op.op_prepend_data [1, 2], writer_op.op_prepend_null,
         writer_op.op_wrap_array]) = none :=
  ⟨rfl, rfl, poison_monotonicity _ _ rfl rfl⟩

/-- C7: `cbor_wrap_map` with an odd innermost item counter poisons the
writer (returns NULL) and every later `cbor_stop_writer` returns nil; with
an even counter `2*k` and enough buffer space it emits a map header whose
argument is `k`, as `cbor_read_map` confirms. -/
theorem map_parity (s t : cbor_writer_state_t) (ops : List writer_op)
    (k : Nat) (ws : List Nat)
    (hsd : s.nesting_depth < CBOR_MAX_NESTING)
    (hodd : s.objects s.nesting_depth % 2 = 1)
    (htd : t.nesting_depth = CBOR_MAX_NESTING - 1)
    (hteven : t.objects (CBOR_MAX_NESTING - 1) = 2 * k)
    (htbuf : t.buffer = some ws)
    (htsz : CBOR_UNSIGNED_SIZE k ≤ t.buffer_size)
    (hk : k < SIZE_MAX) :
    ((cbor_wrap_map s).buffer = none
      ∧ cbor_stop_writer (apply_ops (cbor_wrap_map s) ops) = none)
    ∧ ((cbor_wrap_map t).buffer
        = some ((jump_of k ||| CBOR_MAJOR_TYPE_MAP)
            :: (be_bytes k (ltc_of k) ++ ws))
      ∧ (cbor_read_map (cbor_init_reader
            ((jump_of k ||| CBOR_MAJOR_TYPE_MAP)
              :: (be_bytes k (ltc_of k) ++ ws))
            ((jump_of k ||| CBOR_MAJOR_TYPE_MAP)
              :: (be_bytes k (ltc_of k) ++ ws)).length)).1 = k) := by
  have _ := hsd
  have hk64 : k < 2 ^ 64 := by
    unfold SIZE_MAX at hk
    omega
  constructor
  · rw [wrap_map_odd s hodd]
    exact ⟨rfl, stop_poisoned _ (poison_ops _ ops ⟨rfl, rfl⟩)⟩
  · have hwb := wrap_map_buffer t k htd hteven
      (by rw [unsigned_size_eq_ltc] at htsz; omega)
    rw [htbuf] at hwb
    simp only [Option.map_some'] at hwb
    refine ⟨hwb, ?_⟩
    have hnext2 : cbor_read_next
        ⟨(jump_of k ||| CBOR_MAJOR_TYPE_MAP)
          :: (be_bytes k (ltc_of k) ++ ws),
         ((jump_of k ||| CBOR_MAJOR_TYPE_MAP)
          :: (be_bytes k (ltc_of k) ++ ws)).length⟩
        = some CBOR_MAJOR_TYPE_MAP := by
      rw [read_next_cons _ _ _ (by simp), (head_mask_map k).1]
    have hdec := decode_hdr k hk64 (jump_of k ||| CBOR_MAJOR_TYPE_MAP)
      (head_mask_map k).2 ws
    unfold cbor_read_map cbor_init_reader
    rw [if_neg (by simpa using hnext2)]
    unfold read_array_or_map
    simp only [hdec]
    rw [if_neg (by omega)]

/-- Witness for C7 on concrete odd and even writer states. -/
theorem map_parity_witness :
    (cbor_writer_state_t.mk (some []) 5 7
        (fun i => if i = 7 then 3 else 0)).nesting_depth < CBOR_MAX_NESTING
    ∧ (cbor_writer_state_t.mk (some []) 5 7
        (fun i => if i = 7 then 3 else 0)).objects 7 % 2 = 1
    ∧ ((cbor_wrap_map (cbor_writer_state_t.mk (some []) 5 7
          (fun i => if i = 7 then 3 else 0))).buffer = none
      ∧ cbor_stop_writer (apply_ops (cbor_wrap_map
          (cbor_writer_state_t.mk (some []) 5 7
            (fun i => if i = 7 then 3 else 0)))
          [writer_op.op_prepend_null, writer_op.op_wrap_array]) = none)
    ∧ ((cbor_wrap_map (cbor_writer_state_t.mk (some [0xF6, 0xF6]) 1 7
          (fun i => if i = 7 then 2 else 0))).buffer
        = some ((jump_of 1 ||| CBOR_MAJOR_TYPE_MAP)
            :: (be_bytes 1 (ltc_of 1) ++ [0xF6, 0xF6]))
      ∧ (cbor_read_map (cbor_init_reader
            ((jump_of 1 ||| CBOR_MAJOR_TYPE_MAP)
              :: (be_bytes 1 (ltc_of 1) ++ [0xF6, 0xF6]))
            ((jump_of 1 ||| CBOR_MAJOR_TYPE_MAP)
              :: (be_bytes 1 (ltc_of 1) ++ [0xF6, 0xF6])).length)).1 = 1) := by
  have h := map_parity
    (cbor_writer_state_t.mk (some []) 5 7 (fun i => if i = 7 then 3 else 0))
    (cbor_writer_state_t.mk (some [0xF6, 0xF6]) 1 7
      (fun i => if i = 7 then 2 else 0))
    [writer_op.op_prepend_null, writer_op.op_wrap_array] 1 [0xF6, 0xF6]
    (by decide) (by decide) (by decide) (by decide) (by decide) (by decide)
    (by decide)
  exact ⟨by decide, by decide, h.1, h.2⟩

/-- C2: a session `open_array; <j item-producing prepends>; wrap_array`
that ends unpoisoned produces output on which `cbor_read_array` returns
exactly the number `j` of prepend calls, for every `j`; independently, an
`open_map` session with `2*k` prepend calls (k pairs) that ends unpoisoned
yields `cbor_read_map = k`, the pair count. -/
theorem container_count_roundtrip (N M : Nat) (ops1 ops2 : List writer_op)
    (hops1 : ∀ op ∈ ops1, isItem op = true)
    (hops2 : ∀ op ∈ ops2, isItem op = true)
    (k : Nat) (hk2 : ops2.length = 2 * k)
    (hsz1 : ops1.length < SIZE_MAX) (hsz2 : ops2.length < SIZE_MAX)
    (out1 out2 : List Nat)
    (h1 : (cbor_wrap_array (apply_ops
        (cbor_open_array (cbor_init_writer N)) ops1)).buffer = some out1)
    (h2 : (cbor_wrap_map (apply_ops
        (cbor_open_map (cbor_init_writer M)) ops2)).buffer = some out2) :
    (cbor_read_array (cbor_init_reader out1 out1.length)).1 = ops1.length
    ∧ (cbor_read_map (cbor_init_reader out2 out2.length)).1 = k := by
  have hlen1 : ops1.length < 2 ^ 64 := by
    unfold SIZE_MAX at hsz1
    omega
  have hk64 : k < 2 ^ 64 := by
    unfold SIZE_MAX at hsz2
    omega
  have hkmax : k < SIZE_MAX := by
    unfold SIZE_MAX at hsz2 ⊢
    omega
  constructor
  · have hst_d : (cbor_open_array (cbor_init_writer N)).nesting_depth
        = CBOR_MAX_NESTING - 1 := rfl
    have hst_obj : (cbor_open_array (cbor_init_writer N)).objects
        (CBOR_MAX_NESTING - 1) = 0 := rfl
    have inv := items_inv ops1 hops1 (cbor_open_array (cbor_init_writer N))
      hst_d
    rcases inv.2 with hp | hcnt
    · exfalso
      have hz := (poison_cbor_wrap_array _ hp).1
      rw [hz] at h1
      exact Option.noConfusion h1
    · rw [hst_obj] at hcnt
      simp only [Nat.zero_add] at hcnt
      by_cases hbs : (apply_ops (cbor_open_array (cbor_init_writer N))
          ops1).buffer_size ≤ ltc_of ops1.length
      · exfalso
        have hz := wrap_array_small _ ops1.length inv.1 hcnt hbs
        rw [hz] at h1
        exact Option.noConfusion h1
      · have hwb := wrap_array_buffer _ ops1.length inv.1 hcnt (by omega)
        cases hb2 : (apply_ops (cbor_open_array (cbor_init_writer N))
            ops1).buffer with
        | none =>
          exfalso
          rw [hb2] at hwb
          simp only [Option.map_none'] at hwb
          rw [hwb] at h1
          exact Option.noConfusion h1
        | some ws2 =>
          rw [hb2] at hwb
          simp only [Option.map_some'] at hwb
          rw [hwb] at h1
          have hout : out1 = (jump_of ops1.length ||| CBOR_MAJOR_TYPE_ARRAY)
              :: (be_bytes ops1.length (ltc_of ops1.length) ++ ws2) := by
            injection h1 with h3
            exact h3.symm
          subst hout
          have hnext2 : cbor_read_next
              ⟨(jump_of ops1.length ||| CBOR_MAJOR_TYPE_ARRAY)
                :: (be_bytes ops1.length (ltc_of ops1.length) ++ ws2),
               ((jump_of ops1.length ||| CBOR_MAJOR_TYPE_ARRAY)
                :: (be_bytes ops1.length (ltc_of ops1.length) ++ ws2)).length⟩
              = some CBOR_MAJOR_TYPE_ARRAY := by
            rw [read_next_cons _ _ _ (by simp),
              (head_mask_array ops1.length).1]
          have hdec := decode_hdr ops1.length hlen1
            (jump_of ops1.length ||| CBOR_MAJOR_TYPE_ARRAY)
            (head_mask_array ops1.length).2 ws2
          unfold cbor_read_array cbor_init_reader
          rw [if_neg (by simpa using hnext2)]
          unfold read_array_or_map
          simp only [hdec]
          rw [if_neg (by omega)]
  · have hst_d : (cbor_open_map (cbor_init_writer M)).nesting_depth
        = CBOR_MAX_NESTING - 1 := rfl
    have hst_obj : (cbor_open_map (cbor_init_writer M)).objects
        (CBOR_MAX_NESTING - 1) = 0 := rfl
    have inv := items_inv ops2 hops2 (cbor_open_map (cbor_init_writer M))
      hst_d
    rcases inv.2 with hp | hcnt
    · exfalso
      have hz := (poison_cbor_wrap_map _ hp).1
      rw [hz] at h2
      exact Option.noConfusion h2
    · rw [hst_obj] at hcnt
      simp only [Nat.zero_add] at hcnt
      rw [hk2] at hcnt
      by_cases hbs : (apply_ops (cbor_open_map (cbor_init_writer M))
          ops2).buffer_size ≤ ltc_of k
      · exfalso
        have hz := wrap_map_small _ k inv.1 hcnt hbs
        rw [hz] at h2
        exact Option.noConfusion h2
      · have hwb := wrap_map_buffer _ k inv.1 hcnt (by omega)
        cases hb2 : (apply_ops (cbor_open_map (cbor_init_writer M))
            ops2).buffer with
        | none =>
          exfalso
          rw [hb2] at hwb
          simp only [Option.map_none'] at hwb
          rw [hwb] at h2
          exact Option.noConfusion h2
        | some ws2 =>
          rw [hb2] at hwb
          simp only [Option.map_some'] at hwb
          rw [hwb] at h2
          have hout : out2 = (jump_of k ||| CBOR_MAJOR_TYPE_MAP)
              :: (be_bytes k (ltc_of k) ++ ws2) := by
            injection h2 with h3
            exact h3.symm
          subst hout
          have hnext2 : cbor_read_next
              ⟨(jump_of k ||| CBOR_MAJOR_TYPE_MAP)
                :: (be_bytes k (ltc_of k) ++ ws2),
               ((jump_of k ||| CBOR_MAJOR_TYPE_MAP)
                :: (be_bytes k (ltc_of k) ++ ws2)).length⟩
              = some CBOR_MAJOR_TYPE_MAP := by
            rw [read_next_cons _ _ _ (by simp), (head_mask_map k).1]
          have hdec := decode_hdr k hk64
            (jump_of k ||| CBOR_MAJOR_TYPE_MAP) (head_mask_map k).2 ws2
          unfold cbor_read_map cbor_init_reader
          rw [if_neg (by simpa using hnext2)]
          unfold read_array_or_map
          simp only [hdec]
          rw [if_neg (by omega)]

/-- Witness for C2 with an odd array session (one `prepend_null` item) and
a one-pair map session (two `prepend_null` items). -/
theorem container_count_roundtrip_witness :
    (∀ op ∈ [writer_op.op_prepend_null], isItem op = true)
    ∧ (∀ op ∈ [writer_op.op_prepend_null, writer_op.op_prepend_null],
        isItem op = true)
    ∧ ([writer_op.op_prepend_null, writer_op.op_prepend_null].length = 2 * 1)
    ∧ ([writer_op.op_prepend_null].length < SIZE_MAX)
    ∧ ([writer_op.op_prepend_null, writer_op.op_prepend_null].length
        < SIZE_MAX)
    ∧ (cbor_wrap_array (apply_ops (cbor_open_array (cbor_init_writer 8))
        [writer_op.op_prepend_null])).buffer = some [0x81, 0xF6]
    ∧ (cbor_wrap_map (apply_ops (cbor_open_map (cbor_init_writer 8))
        [writer_op.op_prepend_null, writer_op.op_prepend_null])).buffer
        = some [0xA1, 0xF6, 0xF6]
    ∧ (cbor_read_array (cbor_init_reader [0x81, 0xF6]
        [0x81, 0xF6].length)).1 = [writer_op.op_prepend_null].length
    ∧ (cbor_read_map (cbor_init_reader [0xA1, 0xF6, 0xF6]
        [0xA1, 0xF6, 0xF6].length)).1 = 1 := by
  have h := container_count_roundtrip 8 8 [writer_op.op_prepend_null]
    [writer_op.op_prepend_null, writer_op.op_prepend_null]
    (by decide) (by decide) 1 (by decide) (by decide) (by decide)
    [0x81, 0xF6] [0xA1, 0xF6, 0xF6] (by decide) (by decide)
  exact ⟨by decide, by decide, by decide, by decide, by decide, by decide,
    by decide, h.1, h.2⟩

/-- C5: writing a byte string `d` into a big-enough fresh buffer and
stopping yields output from which `cbor_read_data` returns exactly the
payload `d` with reported size `d.length`, consuming the whole input. -/
theorem data_roundtrip (d : List Nat) (N : Nat) (hd : d.length < 2 ^ 64)
    (hN : CBOR_BYTE_STRING_SIZE d.length ≤ N) :
    cbor_stop_writer (cbor_prepend_data (cbor_init_writer N) d)
        = some ((jump_of d.length ||| CBOR_MAJOR_TYPE_BYTE_STRING)
            :: (be_bytes d.length (ltc_of d.length) ++ d))
    ∧ cbor_read_data (cbor_init_reader
        ((jump_of d.length ||| CBOR_MAJOR_TYPE_BYTE_STRING)
          :: (be_bytes d.length (ltc_of d.length) ++ d))
        ((jump_of d.length ||| CBOR_MAJOR_TYPE_BYTE_STRING)
          :: (be_bytes d.length (ltc_of d.length) ++ d)).length)
      = (some (d, d.length), ⟨[], 0⟩) := by
  constructor
  · rw [encode_data_top N d hN]
    rfl
  · have hnext2 : cbor_read_next
        ⟨(jump_of d.length ||| CBOR_MAJOR_TYPE_BYTE_STRING)
          :: (be_bytes d.length (ltc_of d.length) ++ d),
         ((jump_of d.length ||| CBOR_MAJOR_TYPE_BYTE_STRING)
          :: (be_bytes d.length (ltc_of d.length) ++ d)).length⟩
        = some CBOR_MAJOR_TYPE_BYTE_STRING := by
      rw [read_next_cons _ _ _ (by simp), (head_mask_bs d.length).1]
    have hdec := decode_hdr d.length hd
      (jump_of d.length ||| CBOR_MAJOR_TYPE_BYTE_STRING)
      (head_mask_bs d.length).2 d
    unfold cbor_read_data cbor_init_reader
    rw [if_neg (by simpa using hnext2)]
    unfold read_byte_or_text_string
    simp only [hdec]
    rw [if_neg (by unfold SIZE_MAX; omega), if_neg (by omega)]
    simp

/-- Witness for C5 at `d = [1, 2, 3]`, `N = 8`. -/
theorem data_roundtrip_witness :
    ([1, 2, 3] : List Nat).length < 2 ^ 64
    ∧ CBOR_BYTE_STRING_SIZE ([1, 2, 3] : List Nat).length ≤ 8
    ∧ (cbor_stop_writer (cbor_prepend_data (cbor_init_writer 8) [1, 2, 3])
        = some ((jump_of ([1, 2, 3] : List Nat).length
              ||| CBOR_MAJOR_TYPE_BYTE_STRING)
            :: (be_bytes ([1, 2, 3] : List Nat).length
                (ltc_of ([1, 2, 3] : List Nat).length) ++ [1, 2, 3]))
    ∧ cbor_read_data (cbor_init_reader
        ((jump_of ([1, 2, 3] : List Nat).length
            ||| CBOR_MAJOR_TYPE_BYTE_STRING)
          :: (be_bytes ([1, 2, 3] : List Nat).length
              (ltc_of ([1, 2, 3] : List Nat).length) ++ [1, 2, 3]))
        ((jump_of ([1, 2, 3] : List Nat).length
            ||| CBOR_MAJOR_TYPE_BYTE_STRING)
          :: (be_bytes ([1, 2, 3] : List Nat).length
              (ltc_of ([1, 2, 3] : List Nat).length) ++ [1, 2, 3])).length)
      = (some ([1, 2, 3], ([1, 2, 3] : List Nat).length), ⟨[], 0⟩)) :=
  ⟨by norm_num, by decide,
    data_roundtrip [1, 2, 3] 8 (by norm_num) (by decide)⟩

lemma rbts_error_wide (b : Nat) (rest : List Nat) (n : Nat)
    (hn : n = 1 ∨ n = 2 ∨ n = 4 ∨ n = 8)
    (heq : cbor_read_unsigned ⟨b :: rest, (b :: rest).length⟩
        = read_trailing ⟨rest, rest.length⟩ (b &&& 0x1F) n)
    (herr : (read_byte_or_text_string
        ⟨b :: rest, (b :: rest).length⟩).1 = none) :
    ∃ k, 1 ≤ k ∧ k ≤ 9 ∧
      (read_byte_or_text_string ⟨b :: rest, (b :: rest).length⟩).2
        = ⟨(b :: rest).drop k, (b :: rest).length - k⟩ := by
  have hn8 : 1 ≤ n ∧ n ≤ 8 := by rcases hn with h | h | h | h <;> omega
  unfold read_trailing at heq
  by_cases ht : rest.length < n
  · rw [if_pos ht] at heq
    refine ⟨1, by omega, by omega, ?_⟩
    simp only [read_byte_or_text_string, heq]
    simp
  · rw [if_neg ht] at heq
    simp only [read_byte_or_text_string, heq] at herr ⊢
    by_cases hsm : SIZE_MAX < read_be (rest.take n)
    · rw [if_pos hsm]
      refine ⟨1 + n, by omega, by omega, ?_⟩
      simp only [List.length_cons]
      congr 1
      · rw [Nat.add_comm 1 n, List.drop_succ_cons]
      · omega
    · rw [if_neg hsm] at herr ⊢
      by_cases hp : rest.length - n < read_be (rest.take n)
      · rw [if_pos hp]
        refine ⟨1 + n, by omega, by omega, ?_⟩
        simp only [List.length_cons]
        congr 1
        · rw [Nat.add_comm 1 n, List.drop_succ_cons]
        · omega
      · rw [if_neg hp] at herr
        simp at herr


lemma rbts_error (b : Nat) (rest : List Nat)
    (herr : (read_byte_or_text_string
        ⟨b :: rest, (b :: rest).length⟩).1 = none) :
    ∃ k, 1 ≤ k ∧ k ≤ 9 ∧
      (read_byte_or_text_string ⟨b :: rest, (b :: rest).length⟩).2
        = ⟨(b :: rest).drop k, (b :: rest).length - k⟩ := by
  have hle : b &&& 0x1F ≤ 0x1F := Nat.and_le_right
  by_cases h1 : b &&& 0x1F < CBOR_SIZE_1
  · have heq : cbor_read_unsigned ⟨b :: rest, (b :: rest).length⟩
        = (some (CBOR_SIZE_1, b &&& 0x1F), ⟨rest, rest.length⟩) := by
      unfold cbor_read_unsigned
      rw [if_neg (by simp)]
      simp only [List.headD_cons, List.tail_cons, List.length_cons,
        Nat.add_sub_cancel]
      rw [if_pos h1]
    simp only [read_byte_or_text_string, heq] at herr ⊢
    have hsm : ¬ (SIZE_MAX < b &&& 0x1F) := by
      unfold SIZE_MAX
      omega
    rw [if_neg hsm] at herr ⊢
    by_cases h2 : rest.length < b &&& 0x1F
    · rw [if_pos h2]
      exact ⟨1, by omega, by omega, by simp⟩
    · rw [if_neg h2] at herr
      simp at herr
  · by_cases h24 : b &&& 0x1F = CBOR_SIZE_1
    · refine rbts_error_wide b rest 1 (by omega) ?_ herr
      unfold cbor_read_unsigned
      rw [if_neg (by simp)]
      simp only [List.headD_cons, List.tail_cons, List.length_cons,
        Nat.add_sub_cancel]
      rw [if_neg h1, if_pos h24]
    · by_cases h25 : b &&& 0x1F = CBOR_SIZE_2
      · refine rbts_error_wide b rest 2 (by omega) ?_ herr
        unfold cbor_read_unsigned
        rw [if_neg (by simp)]
        simp only [List.headD_cons, List.tail_cons, List.length_cons,
          Nat.add_sub_cancel]
        rw [if_neg h1, if_neg h24, if_pos h25]
      · by_cases h26 : b &&& 0x1F = CBOR_SIZE_4
        · refine rbts_error_wide b rest 4 (by omega) ?_ herr
          unfold cbor_read_unsigned
          rw [if_neg (by simp)]
          simp only [List.headD_cons, List.tail_cons, List.length_cons,
            Nat.add_sub_cancel]
          rw [if_neg h1, if_neg h24, if_neg h25, if_pos h26]
        · by_cases h27 : b &&& 0x1F = CBOR_SIZE_8
          · refine rbts_error_wide b rest 8 (by omega) ?_ herr
            unfold cbor_read_unsigned
            rw [if_neg (by simp)]
            simp only [List.headD_cons, List.tail_cons, List.length_cons,
              Nat.add_sub_cancel]
            rw [if_neg h1, if_neg h24, if_neg h25, if_neg h26, if_pos h27]
          · have heq : cbor_read_unsigned ⟨b :: rest, (b :: rest).length⟩
                = (none, ⟨rest, rest.length⟩) := by
              unfold cbor_read_unsigned
              rw [if_neg (by simp)]
              simp only [List.headD_cons, List.tail_cons, List.length_cons,
                Nat.add_sub_cancel]
              rw [if_neg h1, if_neg h24, if_neg h25, if_neg h26, if_neg h27]
            simp only [read_byte_or_text_string, heq]
            exact ⟨1, by omega, by omega, by simp⟩

/-- C3 (amended): when `cbor_read_data` (resp. `cbor_read_text`) returns
the NULL sentinel, then either the next major type mismatched and the
reader state is exactly unchanged, or the major type matched and the input
was truncated or malformed, in which case the cursor has advanced past the
consumed header bytes only: by `k` bytes with `1 ≤ k ≤ 9`, never into the
payload.  (The claim as frozen — no advance on truncation — is false; see
the counterexample.) -/
theorem typed_read_error_cursor (s : cbor_reader_state_t)
    (hwf : s.cbor_size = s.cbor.length) :
    ((cbor_read_data s).1 = none →
      (cbor_read_next s ≠ some CBOR_MAJOR_TYPE_BYTE_STRING
          ∧ (cbor_read_data s).2 = s)
        ∨ (cbor_read_next s = some CBOR_MAJOR_TYPE_BYTE_STRING
          ∧ ∃ k, 1 ≤ k ∧ k ≤ 9
              ∧ (cbor_read_data s).2 = ⟨s.cbor.drop k, s.cbor_size - k⟩))
    ∧ ((cbor_read_text s).1 = none →
      (cbor_read_next s ≠ some CBOR_MAJOR_TYPE_TEXT_STRING
          ∧ (cbor_read_text s).2 = s)
        ∨ (cbor_read_next s = some CBOR_MAJOR_TYPE_TEXT_STRING
          ∧ ∃ k, 1 ≤ k ∧ k ≤ 9
              ∧ (cbor_read_text s).2 = ⟨s.cbor.drop k, s.cbor_size - k⟩)) := by
  constructor
  · intro herr
    by_cases hn : cbor_read_next s ≠ some CBOR_MAJOR_TYPE_BYTE_STRING
    · left
      refine ⟨hn, ?_⟩
      unfold cbor_read_data
      rw [if_pos hn]
    · right
      push_neg at hn
      refine ⟨hn, ?_⟩
      rcases s with ⟨cbor, size⟩
      dsimp only at hwf herr hn ⊢
      subst hwf
      cases cbor with
      | nil =>
        exfalso
        unfold cbor_read_next at hn
        simp at hn
      | cons b rest =>
        have herr2 : (read_byte_or_text_string
            ⟨b :: rest, (b :: rest).length⟩).1 = none := by
          unfold cbor_read_data at herr
          rw [if_neg (fun hne => hne hn)] at herr
          exact herr
        obtain ⟨k, hk1, hk9, hkeq⟩ := rbts_error b rest herr2
        refine ⟨k, hk1, hk9, ?_⟩
        unfold cbor_read_data
        rw [if_neg (fun hne => hne hn)]
        exact hkeq
  · intro herr
    by_cases hn : cbor_read_next s ≠ some CBOR_MAJOR_TYPE_TEXT_STRING
    · left
      refine ⟨hn, ?_⟩
      unfold cbor_read_text
      rw [if_pos hn]
    · right
      push_neg at hn
      refine ⟨hn, ?_⟩
      rcases s with ⟨cbor, size⟩
      dsimp only at hwf herr hn ⊢
      subst hwf
      cases cbor with
      | nil =>
        exfalso
        unfold cbor_read_next at hn
        simp at hn
      | cons b rest =>
        have herr2 : (read_byte_or_text_string
            ⟨b :: rest, (b :: rest).length⟩).1 = none := by
          unfold cbor_read_text at herr
          rw [if_neg (fun hne => hne hn)] at herr
          exact herr
        obtain ⟨k, hk1, hk9, hkeq⟩ := rbts_error b rest herr2
        refine ⟨k, hk1, hk9, ?_⟩
        unfold cbor_read_text
        rw [if_neg (fun hne => hne hn)]
        exact hkeq

/-- Counterexample to C3 as frozen: on the truncated byte-string input
`[0x58]` (major type 2, one-byte length argument missing),
`cbor_read_data` returns the NULL sentinel yet the reader state moved past
the initial byte. -/
theorem typed_read_error_cursor_counterexample :
    (cbor_read_data ⟨[0x58], 1⟩).1 = none
    ∧ (cbor_read_data ⟨[0x58], 1⟩).2 ≠ (⟨[0x58], 1⟩ : cbor_reader_state_t) := by
  decide

/-- Witness for C3 on the concrete truncated input `[0x58]`. -/
theorem typed_read_error_cursor_witness :
    ((⟨[0x58], 1⟩ : cbor_reader_state_t).cbor_size
        = (⟨[0x58], 1⟩ : cbor_reader_state_t).cbor.length)
    ∧ (((cbor_read_data (⟨[0x58], 1⟩ : cbor_reader_state_t)).1 = none →
      (cbor_read_next (⟨[0x58], 1⟩ : cbor_reader_state_t)
            ≠ some CBOR_MAJOR_TYPE_BYTE_STRING
          ∧ (cbor_read_data (⟨[0x58], 1⟩ : cbor_reader_state_t)).2
            = (⟨[0x58], 1⟩ : cbor_reader_state_t))
        ∨ (cbor_read_next (⟨[0x58], 1⟩ : cbor_reader_state_t)
            = some CBOR_MAJOR_TYPE_BYTE_STRING
          ∧ ∃ k, 1 ≤ k ∧ k ≤ 9
              ∧ (cbor_read_data (⟨[0x58], 1⟩ : cbor_reader_state_t)).2
                = ⟨(⟨[0x58], 1⟩ : cbor_reader_state_t).cbor.drop k,
                   (⟨[0x58], 1⟩ : cbor_reader_state_t).cbor_size - k⟩))) :=
  ⟨rfl, (typed_read_error_cursor ⟨[0x58], 1⟩ rfl).1⟩

set_option maxRecDepth 8192

/-- C8 (amended): `cbor_read_next` peeks `*cbor & 0xE0` without touching
the state (the embedding is a pure observation).  On the float initial
bytes `0xF9/0xFA/0xFB` it reports major type 7 (`0xE0`, Simple); on a tag
initial byte `0xC0-0xDF` it reports the raw value `0xC0` — the tag
major-type bits, which match no supported constant but are NOT the
`CBOR_MAJOR_TYPE_NONE` sentinel; with zero bytes remaining it reports the
sentinel `none`.  (The claim as frozen — `None` for tags — is false; see
the counterexample.) -/
theorem read_next_unsupported (b : Nat) (rest : List Nat) (l : List Nat) :
    ((b = 0xF9 ∨ b = 0xFA ∨ b = 0xFB) →
      cbor_read_next ⟨b :: rest, (b :: rest).length⟩
        = some CBOR_MAJOR_TYPE_SIMPLE)
    ∧ (0xC0 ≤ b → b ≤ 0xDF →
      cbor_read_next ⟨b :: rest, (b :: rest).length⟩ = some 0xC0
        ∧ cbor_read_next ⟨b :: rest, (b :: rest).length⟩ ≠ none)
    ∧ cbor_read_next ⟨l, 0⟩ = none := by
  refine ⟨?_, ?_, rfl⟩
  · intro hb
    rw [read_next_cons _ _ _ (by simp)]
    rcases hb with h | h | h <;> subst h <;> decide
  · intro h1 h2
    rw [read_next_cons _ _ _ (by simp)]
    have hmask : b &&& 0xE0 = 0xC0 := by
      have hh : ∀ x < 224, 192 ≤ x → x &&& 224 = 192 := by decide
      exact hh b (by omega) h1
    rw [hmask]
    exact ⟨rfl, by simp⟩

/-- Counterexample to C8 as frozen: on the tag initial byte `0xC0`,
`cbor_read_next` returns `0xC0`, not the `CBOR_MAJOR_TYPE_NONE`
sentinel. -/
theorem read_next_unsupported_counterexample :
    cbor_read_next ⟨[0xC0], 1⟩ = some 0xC0
    ∧ cbor_read_next ⟨[0xC0], 1⟩ ≠ none := by
  decide

/-- Witness for C8 at the float byte `0xF9`, the tag byte `0xC5`, and an
empty remainder. -/
theorem read_next_unsupported_witness :
    ((0xF9 : Nat) = 0xF9 ∨ (0xF9 : Nat) = 0xFA ∨ (0xF9 : Nat) = 0xFB)
    ∧ cbor_read_next ⟨[0xF9], [(0xF9 : Nat)].length⟩
        = some CBOR_MAJOR_TYPE_SIMPLE
    ∧ ((0xC0 : Nat) ≤ 0xC5 ∧ (0xC5 : Nat) ≤ 0xDF)
    ∧ (cbor_read_next ⟨[0xC5, 0], [(0xC5 : Nat), 0].length⟩ = some 0xC0
        ∧ cbor_read_next ⟨[0xC5, 0], [(0xC5 : Nat), 0].length⟩ ≠ none)
    ∧ cbor_read_next ⟨[1, 2], 0⟩ = none := by
  have h1 := read_next_unsupported 0xF9 ([] : List Nat) ([1, 2])
  have h2 := read_next_unsupported 0xC5 ([0]) ([1, 2])
  exact ⟨Or.inl rfl, h1.1 (Or.inl rfl), ⟨by norm_num, by norm_num⟩,
    h2.2.1 (by norm_num) (by norm_num), h1.2.2⟩

/-- C9: an initial byte whose low-5-bit field `f` is below 24 makes
`cbor_read_unsigned` consume exactly one byte, store `f` as the value, and
return `CBOR_SIZE_1` — the same return value it produces for a field-24
item with one trailing argument byte, so the two encodings are
indistinguishable by the returned size class. -/
theorem read_unsigned_immediate_size (b : Nat) (rest : List Nat)
    (hb : b &&& 0x1F < CBOR_SIZE_1)
    (b2 a : Nat) (rest2 : List Nat) (hb2 : b2 &&& 0x1F = CBOR_SIZE_1) :
    cbor_read_unsigned ⟨b :: rest, (b :: rest).length⟩
        = (some (CBOR_SIZE_1, b &&& 0x1F), ⟨rest, rest.length⟩)
    ∧ (cbor_read_unsigned ⟨b2 :: a :: rest2, (b2 :: a :: rest2).length⟩).1
        = some (CBOR_SIZE_1, a) := by
  constructor
  · unfold cbor_read_unsigned
    rw [if_neg (by simp)]
    simp only [List.headD_cons, List.tail_cons, List.length_cons,
      Nat.add_sub_cancel]
    rw [if_pos hb]
  · unfold cbor_read_unsigned
    rw [if_neg (by simp)]
    simp only [List.headD_cons, List.tail_cons, List.length_cons,
      Nat.add_sub_cancel]
    rw [if_neg (by omega), if_pos hb2]
    unfold read_trailing
    rw [if_neg (by simp)]
    simp [read_be, hb2]

/-- Witness for C9 at the immediate byte `0x05` and the two-byte item
`0x18 0xC8`. -/
theorem read_unsigned_immediate_size_witness :
    (0x05 : Nat) &&& 0x1F < CBOR_SIZE_1
    ∧ (0x18 : Nat) &&& 0x1F = CBOR_SIZE_1
    ∧ (cbor_read_unsigned ⟨[0x05, 9], [(0x05 : Nat), 9].length⟩
        = (some (CBOR_SIZE_1, (0x05 : Nat) &&& 0x1F), ⟨[9], [(9 : Nat)].length⟩)
    ∧ (cbor_read_unsigned ⟨[0x18, 0xC8], [(0x18 : Nat), 0xC8].length⟩).1
        = some (CBOR_SIZE_1, 0xC8)) :=
  ⟨by decide, by decide,
    read_unsigned_immediate_size 0x05 [9] (by decide) 0x18 0xC8 []
      (by decide)⟩

/-- C10: `cbor_prepend_object` with an empty object never poisons —
it leaves the buffer, free-byte count, and depth unchanged even with zero
free bytes — yet still counts as one item in the innermost open
container. -/
theorem prepend_object_zero (s : cbor_writer_state_t)
    (hd : s.nesting_depth < CBOR_MAX_NESTING) :
    (cbor_prepend_object s []).buffer = s.buffer
    ∧ (cbor_prepend_object s []).buffer_size = s.buffer_size
    ∧ (cbor_prepend_object s []).nesting_depth = s.nesting_depth
    ∧ (cbor_prepend_object s []).objects s.nesting_depth
        = s.objects s.nesting_depth + 1 := by
  have hpo : prepend_object s [] = s := by
    unfold prepend_object
    simp
  unfold cbor_prepend_object
  rw [hpo]
  exact ⟨(increment_fields s).1, (increment_fields s).2.1,
    (increment_fields s).2.2, increment_objects_self s (by omega)⟩

/-- Witness for C10 on a writer with an open container and zero free
bytes. -/
theorem prepend_object_zero_witness :
    (cbor_writer_state_t.mk (some [3]) 0 7
        (fun _ => 0)).nesting_depth < CBOR_MAX_NESTING
    ∧ ((cbor_prepend_object (cbor_writer_state_t.mk (some [3]) 0 7
          (fun _ => 0)) []).buffer
        = (cbor_writer_state_t.mk (some [3]) 0 7 (fun _ => 0)).buffer
    ∧ (cbor_prepend_object (cbor_writer_state_t.mk (some [3]) 0 7
          (fun _ => 0)) []).buffer_size
        = (cbor_writer_state_t.mk (some [3]) 0 7 (fun _ => 0)).buffer_size
    ∧ (cbor_prepend_object (cbor_writer_state_t.mk (some [3]) 0 7
          (fun _ => 0)) []).nesting_depth
        = (cbor_writer_state_t.mk (some [3]) 0 7 (fun _ => 0)).nesting_depth
    ∧ (cbor_prepend_object (cbor_writer_state_t.mk (some [3]) 0 7
          (fun _ => 0)) []).objects
          (cbor_writer_state_t.mk (some [3]) 0 7 (fun _ => 0)).nesting_depth
        = (cbor_writer_state_t.mk (some [3]) 0 7 (fun _ => 0)).objects
            (cbor_writer_state_t.mk (some [3]) 0 7
              (fun _ => 0)).nesting_depth + 1) :=
  ⟨by decide,
    prepend_object_zero (cbor_writer_state_t.mk (some [3]) 0 7 (fun _ => 0))
      (by decide)⟩
